import Mathlib

/-!
A shallow embedding of `domain-stream.py`: a certstream-fed domain watcher
with a deduplicating rate-limited queue, a worker pool that keyword-matches
and optionally resolves domains, and an append-only findings log.

Domains and keywords are Python strings, modelled as `List Char`.
-/

namespace DomainStream

/-- A domain or keyword string, as a list of characters. -/
abbrev Dom := List Char

/-- Python `hay.startswith(needle)`: does `needle` occur at the start of `hay`? -/
def startsWithL : (hay needle : Dom) → Bool
  | _, [] => true
  | [], _ :: _ => false
  | h :: t, n :: ns => (h = n) && startsWithL t ns

/-- Python `needle in hay` for strings: substring containment. -/
def pyIn (needle : Dom) : (hay : Dom) → Bool
  | [] => startsWithL [] needle
  | h :: t => startsWithL (h :: t) needle || pyIn needle t

/-- The wildcard-stripping step of `DomainWorker.__process`:
`domain[2:] if domain.startswith('*.') else domain`. -/
def stripWildcard (d : Dom) : Dom :=
  if startsWithL d ['*', '.'] then d.drop 2 else d

/-- `DomainWorker.__domain_contains_any_keywords`:
`any(keyword in domain for keyword in KEYWORD_DOMAINS)`. -/
def domain_contains_any_keywords (keywords : List Dom) (domain : Dom) : Bool :=
  keywords.any (fun k => pyIn k domain)

/-- `get_permutations(domain)`: the literal list built in the source,
including its duplicate entries; the commented-out entry is omitted. -/
def get_permutations (domain : Dom) : List Dom :=
  [ domain ++ ['-'],
    ['-'] ++ domain ++ ['-'],
    ['-'] ++ domain,
    ['.'] ++ domain ++ ['.'],
    ['.'] ++ domain,
    ['.'] ++ domain ++ ['-'],
    ['-'] ++ domain,
    ['-'] ++ domain ++ ['.'],
    ['.'] ++ domain ++ ['.'] ]

/-- The keyword set built in `main`: with `--keywords-only`, the
concatenation of `get_permutations` over the input seeds; otherwise the
seeds verbatim. -/
def keywordDomains (keywordsOnly : Bool) (inputDomains : List Dom) : List Dom :=
  if keywordsOnly then inputDomains.flatMap get_permutations else inputDomains

/-- The observable state touched by `DomainWorker.__log`: the global
`FOUND_COUNT` and the lines of `domains.log`. -/
structure LogState where
  foundCount : Nat
  fileLines : List Dom
deriving DecidableEq, Repr

/-- `DomainWorker.__log(new_domain)`: increments `FOUND_COUNT` and, when
`ARGS.log_to_file` is set, appends the line to `domains.log`. -/
def log (logToFile : Bool) (newDomain : Dom) (s : LogState) : LogState :=
  { foundCount := s.foundCount + 1,
    fileLines := if logToFile then s.fileLines ++ [newDomain] else s.fileLines }

/-- `DomainWorker.__check_resolution(domain)`: the DNS lookup is a black
box returning `some ip` on success, `none` on failure.  On success the
source logs `domain + "," + ip` only when `ARGS.only_resolving` is set;
on failure it logs `domain` only when `ARGS.only_resolving` is unset. -/
def check_resolution (onlyResolving logToFile : Bool) (domain : Dom)
    (resolution : Option Dom) (s : LogState) : LogState :=
  match resolution with
  | some ip => if onlyResolving then log logToFile (domain ++ [','] ++ ip) s else s
  | none => if onlyResolving then s else log logToFile domain s

/-- `DomainWorker.__process(domain)`: the keyword match is tested on the
raw domain; only afterwards is the wildcard marker stripped, and then the
resolve or no-resolve branch logs. -/
def process (resolve onlyResolving logToFile : Bool) (keywords : List Dom)
    (domain : Dom) (resolution : Option Dom) (s : LogState) : LogState :=
  if domain_contains_any_keywords keywords domain then
    let domain2 := stripWildcard domain
    if resolve then check_resolution onlyResolving logToFile domain2 resolution s
    else log logToFile domain2 s
  else s

/-- Modelled from the spec: the variant of `__process` the spec describes,
in which wildcard normalization is applied before the keyword-matching
decision.  Declared only to compare against `process`. -/
def processNormalizeFirst (resolve onlyResolving logToFile : Bool)
    (keywords : List Dom) (domain : Dom) (resolution : Option Dom)
    (s : LogState) : LogState :=
  let domain2 := stripWildcard domain
  if domain_contains_any_keywords keywords domain2 then
    if resolve then check_resolution onlyResolving logToFile domain2 resolution s
    else log logToFile domain2 s
  else s

/-- The state of `DomainQueue` relevant to admission: the `checked_domains`
seen-list and the underlying buffer of queued items. -/
structure QueueState where
  checked_domains : List Dom
  buffer : List Dom
deriving DecidableEq, Repr

/-- `DomainQueue.put(domain)`: admit only if not already in
`checked_domains`; on admission append to both the seen-list and the
buffer. -/
def put (s : QueueState) (domain : Dom) : QueueState :=
  if domain ∈ s.checked_domains then s
  else { checked_domains := s.checked_domains ++ [domain],
         buffer := s.buffer ++ [domain] }

/-- The rate-limiting state of `DomainQueue`: the `rate_limited` flag and
the `next_yield` mark (time in abstract ticks). -/
structure RateState where
  rate_limited : Bool
  next_yield : Nat
deriving DecidableEq, Repr

/-- `DomainQueue.__init__`: `rate_limited = False`, `next_yield = 0`. -/
def initRateState : RateState := { rate_limited := false, next_yield := 0 }

/-- The rate-limiting prologue of `DomainQueue.get`, called at monotonic
time `t`: returns `(sleepDuration, returnTime, newState)`.  The source
sleeps only when `rate_limited` is set and `t < next_yield`; after the
sleep the clock reads `next_yield` and the flag is cleared; in all cases
`next_yield` is advanced to the current time plus `rate_limit_sleep`. -/
def getRate (rate_limit_sleep : Nat) (s : RateState) (t : Nat) :
    Nat × Nat × RateState :=
  if s.rate_limited ∧ t < s.next_yield then
    (s.next_yield - t, s.next_yield,
      { rate_limited := false, next_yield := s.next_yield + rate_limit_sleep })
  else
    (0, t, { rate_limited := s.rate_limited, next_yield := t + rate_limit_sleep })

/-- The thread count actually used by `main`: argparse supplies `20` when
the `--threads` flag is omitted, and the `if not ARGS.threads` fallback
replaces a (Python-falsy) parsed value `0` with `5`. -/
def effectiveThreads (cli : Option Int) : Int :=
  let t := cli.getD 20
  if t = 0 then 5 else t

/-- The string `"Let's Encrypt"` tested against the certificate chain. -/
def letsEncryptMarker : Dom :=
  ['L', 'e', 't', Char.ofNat 39, 's', ' ', 'E', 'n', 'c', 'r', 'y', 'p', 't']

/-- The parts of a certstream message read by `CertStreamThread.process`. -/
structure CertMessage where
  message_type : Dom
  all_domains : List Dom
  chain0SubjectAggregated : Dom
deriving DecidableEq, Repr

/-- `CertStreamThread.process`: the list of domains offered to the queue
for one message.  Heartbeats contribute nothing; certificate updates are
dropped whole when `--skip-lets-encrypt` is set and the first chain
element's aggregated subject contains `"Let's Encrypt"`; otherwise each
distinct domain of the event is offered. -/
def processMessageOffers (skipLetsEncrypt : Bool) (msg : CertMessage) :
    List Dom :=
  if msg.message_type = ['h', 'e', 'a', 'r', 't', 'b', 'e', 'a', 't'] then []
  else if msg.message_type =
      ['c', 'e', 'r', 't', 'i', 'f', 'i', 'c', 'a', 't', 'e', '_',
       'u', 'p', 'd', 'a', 't', 'e'] then
    if skipLetsEncrypt && pyIn letsEncryptMarker msg.chain0SubjectAggregated
    then []
    else msg.all_domains.dedup
  else []

/-- The seven decorated forms of seed `foo` named by the spec. -/
def sevenFormsFoo : List Dom :=
  [ ['f', 'o', 'o', '-'],
    ['-', 'f', 'o', 'o', '-'],
    ['-', 'f', 'o', 'o'],
    ['.', 'f', 'o', 'o', '.'],
    ['.', 'f', 'o', 'o'],
    ['.', 'f', 'o', 'o', '-'],
    ['-', 'f', 'o', 'o', '.'] ]

/-! ## Helper lemmas -/

/-- Substring containment is preserved under extending the haystack on the
left by one character. -/
theorem pyIn_cons {needle : Dom} (h : Char) {t : Dom}
    (hp : pyIn needle t = true) : pyIn needle (h :: t) = true := by
  simp [pyIn, hp]

/-- Substring containment in `l.drop n` implies containment in `l`. -/
theorem pyIn_drop {needle : Dom} (l : Dom) (n : Nat)
    (hp : pyIn needle (l.drop n) = true) : pyIn needle l = true := by
  induction l generalizing n with
  | nil => simpa using hp
  | cons h t ih =>
    cases n with
    | zero => simpa using hp
    | succ m => exact pyIn_cons h (ih m (by simpa using hp))

/-- Substring containment in the stripped form implies containment in the
original domain: stripping only drops a leading `*.`. -/
theorem pyIn_stripWildcard {needle : Dom} (d : Dom)
    (hp : pyIn needle (stripWildcard d) = true) : pyIn needle d = true := by
  unfold stripWildcard at hp
  by_cases hs : startsWithL d ['*', '.'] = true
  · exact pyIn_drop d 2 (by simpa [hs] using hp)
  · simpa [hs] using hp

/-- Every permutation of a seed is strictly longer than the seed. -/
theorem length_lt_of_mem_get_permutations {d k : Dom}
    (hk : k ∈ get_permutations d) : d.length < k.length := by
  simp only [get_permutations, List.mem_cons, List.not_mem_nil, or_false] at hk
  rcases hk with rfl | rfl | rfl | rfl | rfl | rfl | rfl | rfl | rfl <;>
    simp <;> omega

/-! ## Claim theorems -/

/-- C1: code behavior at the failing input.  In resolve mode with the
only-resolving flag unset, a matching domain that resolves successfully is
not logged at all: the counter stays 0 and no line is written.  The
`domain,ip` line is produced only when the only-resolving flag is set, so
the logging on success is not independent of that flag. -/
theorem c1_resolve_success_not_logged_without_flag :
    process true false true ["x".toList] "x.com".toList
        (some "1.2.3.4".toList) ⟨0, []⟩ = ⟨0, []⟩ ∧
    process true true true ["x".toList] "x.com".toList
        (some "1.2.3.4".toList) ⟨0, []⟩ = ⟨1, ["x.com,1.2.3.4".toList]⟩ := by
  decide

/-- C2 counterexample: wildcard normalization is not applied before the
keyword-matching decision.  With keyword `*.` and domain `*.a`, `process`
(match first, then strip) logs a finding while the normalize-first variant
described by the spec does not. -/
theorem c2_counterexample_match_before_strip :
    process false false true [['*', '.']] "*.a".toList none ⟨0, []⟩ ≠
      processNormalizeFirst false false true [['*', '.']] "*.a".toList none
        ⟨0, []⟩ := by
  decide

/-- C2 amended: stripping happens after the matching decision but before
logging; since a keyword contained in the stripped form is also contained
in the original, such a domain still matches, and it is logged in its
stripped form. -/
theorem c2_strip_after_match_still_logs (onlyResolving logToFile : Bool)
    (keywords : List Dom) (d : Dom) (res : Option Dom) (s : LogState)
    (k : Dom) (hk : k ∈ keywords)
    (hinf : pyIn k (stripWildcard d) = true) :
    domain_contains_any_keywords keywords d = true ∧
    process false onlyResolving logToFile keywords d res s =
      log logToFile (stripWildcard d) s := by
  have hm : domain_contains_any_keywords keywords d = true :=
    List.any_eq_true.mpr ⟨k, hk, pyIn_stripWildcard d hinf⟩
  exact ⟨hm, by simp [process, hm]⟩

/-- C2 witness: keyword `a` is contained in the stripped form of `*.a`;
the domain matches and is logged as `a`. -/
theorem c2_witness :
    domain_contains_any_keywords [['a']] "*.a".toList = true ∧
    process false false true [['a']] "*.a".toList none ⟨0, []⟩ =
      log true (stripWildcard "*.a".toList) ⟨0, []⟩ :=
  c2_strip_after_match_still_logs false true [['a']] "*.a".toList none
    ⟨0, []⟩ ['a'] (by decide) (by decide)

/-- C3: code behavior.  `rate_limited` starts `False` and no code path
ever sets it `True`, so the sleep branch of `get` is dead: with
`rate_limit_sleep = 10`, a withdrawal at tick 0 and another at tick 3 both
return immediately (zero sleep), a spacing of 3 < 10. -/
theorem c3_rate_limit_never_sleeps :
    (getRate 10 initRateState 0).1 = 0 ∧
    (getRate 10 initRateState 0).2.1 = 0 ∧
    ((getRate 10 initRateState 0).2.2).rate_limited = false ∧
    ((getRate 10 initRateState 0).2.2).next_yield = 10 ∧
    (getRate 10 (getRate 10 initRateState 0).2.2 3).1 = 0 ∧
    (getRate 10 (getRate 10 initRateState 0).2.2 3).2.1 = 3 ∧
    (3 : Nat) - 0 < 10 := by
  decide

/-- C4: offering a fresh domain twice yields exactly one seen-list entry
and exactly one buffered item; the second offer is a no-op and consumes no
buffer capacity. -/
theorem c4_put_idempotent (s : QueueState) (d : Dom)
    (h : d ∉ s.checked_domains) :
    put (put s d) d = put s d ∧
    (put (put s d) d).checked_domains.count d = 1 ∧
    (put (put s d) d).buffer.count d = s.buffer.count d + 1 ∧
    (put (put s d) d).buffer.length = s.buffer.length + 1 := by
  have h1 : put s d =
      ⟨s.checked_domains ++ [d], s.buffer ++ [d]⟩ := by
    simp [put, h]
  rw [h1]
  have h2 : put (⟨s.checked_domains ++ [d], s.buffer ++ [d]⟩ : QueueState) d =
      ⟨s.checked_domains ++ [d], s.buffer ++ [d]⟩ := by
    simp [put]
  rw [h2]
  refine ⟨rfl, ?_, ?_, ?_⟩
  · simp [List.count_append, List.count_eq_zero.mpr h]
  · simp [List.count_append]
  · simp

/-- C4 witness: offering `a` twice to the empty queue. -/
theorem c4_witness :
    put (put ⟨[], []⟩ "a".toList) "a".toList = put ⟨[], []⟩ "a".toList ∧
    (put (put ⟨[], []⟩ "a".toList) "a".toList).checked_domains.count
      "a".toList = 1 ∧
    (put (put ⟨[], []⟩ "a".toList) "a".toList).buffer.count "a".toList =
      ([] : List Dom).count "a".toList + 1 ∧
    (put (put ⟨[], []⟩ "a".toList) "a".toList).buffer.length =
      ([] : List Dom).length + 1 :=
  c4_put_idempotent ⟨[], []⟩ "a".toList (by simp)

/-- C5: in resolve mode with only-resolving set, a matching domain whose
resolution fails leaves the log state untouched: no line, no counter
increment. -/
theorem c5_only_resolving_failure_silent (logToFile : Bool)
    (keywords : List Dom) (d : Dom) (s : LogState)
    (hmatch : domain_contains_any_keywords keywords d = true) :
    process true true logToFile keywords d none s = s := by
  simp [process, hmatch, check_resolution]

/-- C5 witness: matching domain `a.com`, failed resolution, flag set. -/
theorem c5_witness :
    process true true true [['a']] "a.com".toList none ⟨0, []⟩ = ⟨0, []⟩ :=
  c5_only_resolving_failure_silent true [['a']] "a.com".toList ⟨0, []⟩
    (by decide)

/-- C6 counterexample: with the threads flag omitted the worker count is
the argparse default 20, not 5. -/
theorem c6_counterexample_unset_is_20 :
    effectiveThreads none ≠ 5 ∧ effectiveThreads none = 20 := by
  decide

/-- C6 amended: the fallback to 5 applies only when the parsed value is
the Python-falsy 0; an omitted flag yields the argparse default 20, and
any other parsed value is used as given. -/
theorem c6_threads_default (v : Int) (hv : v ≠ 0) :
    effectiveThreads none = 20 ∧ effectiveThreads (some 0) = 5 ∧
    effectiveThreads (some v) = v := by
  refine ⟨by decide, by decide, ?_⟩
  simp [effectiveThreads, hv]

/-- C6 witness: a parsed value of 7 is used unchanged. -/
theorem c6_witness :
    effectiveThreads none = 20 ∧ effectiveThreads (some 0) = 5 ∧
    effectiveThreads (some 7) = 7 :=
  c6_threads_default 7 (by decide)

/-- C7: in keywords-only mode, seed `foo` expands to a keyword set
containing the seven decorated forms, and any domain containing one of
those forms as a substring is matched. -/
theorem c7_permutations_cover_seven_forms :
    (∀ k ∈ sevenFormsFoo, k ∈ keywordDomains true [['f', 'o', 'o']]) ∧
    (∀ (d : Dom), ∀ k ∈ sevenFormsFoo, pyIn k d = true →
      domain_contains_any_keywords (keywordDomains true [['f', 'o', 'o']]) d
        = true) := by
  refine ⟨by decide, fun d k hk hp => ?_⟩
  have hk2 : k ∈ keywordDomains true [['f', 'o', 'o']] := by
    simp only [sevenFormsFoo, List.mem_cons, List.not_mem_nil, or_false] at hk
    rcases hk with rfl | rfl | rfl | rfl | rfl | rfl | rfl <;> decide
  exact List.any_eq_true.mpr ⟨k, hk2, hp⟩

/-- C7 witness: `test.foo.com` contains `.foo.` and so matches. -/
theorem c7_witness :
    domain_contains_any_keywords (keywordDomains true [['f', 'o', 'o']])
      "test.foo.com".toList = true :=
  c7_permutations_cover_seven_forms.2 "test.foo.com".toList
    ['.', 'f', 'o', 'o', '.'] (by decide) (by decide)

/-- C8: with the skip-lets-encrypt policy active, any message whose first
chain element's aggregated subject contains `"Let's Encrypt"` contributes
zero candidate domains to the queue. -/
theorem c8_lets_encrypt_skipped (msg : CertMessage)
    (h : pyIn letsEncryptMarker msg.chain0SubjectAggregated = true) :
    processMessageOffers true msg = [] := by
  simp [processMessageOffers, h]

/-- C8 witness: a certificate-update event with one domain and a subject
equal to the marker contributes nothing. -/
theorem c8_witness :
    processMessageOffers true
      ⟨['c', 'e', 'r', 't', 'i', 'f', 'i', 'c', 'a', 't', 'e', '_',
        'u', 'p', 'd', 'a', 't', 'e'],
       ["a.com".toList], letsEncryptMarker⟩ = [] :=
  c8_lets_encrypt_skipped _ (by decide)

/-- C9: `__log` increments the found counter unconditionally and appends a
line to the file exactly when the log flag is set; nothing else in the log
state changes. -/
theorem c9_log_counter_and_file (logToFile : Bool) (d : Dom)
    (s : LogState) :
    (log logToFile d s).foundCount = s.foundCount + 1 ∧
    (log logToFile d s).fileLines =
      (if logToFile then s.fileLines ++ [d] else s.fileLines) :=
  ⟨rfl, rfl⟩

/-- C10: in keywords-only mode every stored keyword is a permutation of
some seed, a bare seed is never its own permutation, and `foobar.com` does
not match the keyword set expanded from seed `foo`. -/
theorem c10_keywords_only_no_bare_seed :
    (∀ (seeds : List Dom) (k : Dom), k ∈ keywordDomains true seeds →
      ∃ sd ∈ seeds, k ∈ get_permutations sd) ∧
    (∀ d : Dom, d ∉ get_permutations d) ∧
    domain_contains_any_keywords (keywordDomains true [['f', 'o', 'o']])
      "foobar.com".toList = false := by
  refine ⟨?_, ?_, by decide⟩
  · intro seeds k hk
    simp only [keywordDomains, if_true] at hk
    exact List.mem_flatMap.mp hk
  · intro d hd
    exact absurd (length_lt_of_mem_get_permutations hd) (lt_irrefl _)

/-- C10 witness: `foo-` in the expanded set comes from the seed `foo`. -/
theorem c10_witness :
    ∃ sd ∈ [['f', 'o', 'o']], ['f', 'o', 'o', '-'] ∈ get_permutations sd :=
  c10_keywords_only_no_bare_seed.1 [['f', 'o', 'o']] ['f', 'o', 'o', '-']
    (by decide)

end DomainStream
